import Mathlib

/-!
# Verification of the solar-suitability merge pipeline

Shallow embedding of `create_true_solar_suitability.py` (the district-matching
and attribute-merging pipeline) together with the enumerated suitability level
sets of `legend_component.py`.  District names are modelled as lists of Unicode
code points (`List Nat`); column names as Lean `String`s; tabular joins as
explicit list operations with pandas `merge` semantics.
-/

set_option autoImplicit false

namespace Solar

/-! ## Name normalizer (§4.1)

`create_match_key` at lines 190-193 of `create_true_solar_suitability.py`:
`str(name).lower().strip().replace(' ', '').replace('-', '').replace('.', '')`,
with missing names mapped to the empty string.  The intermediate
`District_Clean` columns (lines 137-138, 159, 174) use `str.title().str.strip()`.
Characters are code points; case mapping follows the ASCII rule. -/

/-- Whitespace code points stripped by `str.strip()` (ASCII range). -/
def isWS (c : Nat) : Bool :=
  c = 32 || c = 9 || c = 10 || c = 11 || c = 12 || c = 13

/-- `str.lower()` on one character (ASCII case rule). -/
def lowerC (c : Nat) : Nat :=
  if 65 ≤ c ∧ c ≤ 90 then c + 32 else c

/-- Uppercasing of one character (ASCII case rule), used by `str.title()`. -/
def upperC (c : Nat) : Nat :=
  if 97 ≤ c ∧ c ≤ 122 then c - 32 else c

/-- Alphabetic (cased) characters, as far as `str.title()` word breaks go. -/
def isAlphaC (c : Nat) : Bool :=
  (65 ≤ c && c ≤ 90) || (97 ≤ c && c ≤ 122)

/-- `str.strip()`: remove leading and trailing whitespace. -/
def pyStrip (s : List Nat) : List Nat :=
  (((s.dropWhile isWS).reverse).dropWhile isWS).reverse

/-- The worker of `str.title()`: the flag records whether the previous
character was cased (inside a word). -/
def titleAux : Bool → List Nat → List Nat
  | _, [] => []
  | prev, c :: cs =>
    if isAlphaC c then
      (if prev then lowerC c else upperC c) :: titleAux true cs
    else
      c :: titleAux false cs

/-- `str.title()`. -/
def pyTitle (s : List Nat) : List Nat := titleAux false s

/-- `.str.title().str.strip()` — the `District_Clean` join key of the
master-record builder (lines 137-138, 159, 174). -/
def districtClean (s : List Nat) : List Nat := pyStrip (pyTitle s)

/-- `District_Clean` on a possibly missing name (pandas keeps NaN). -/
def districtCleanO (s : Option (List Nat)) : Option (List Nat) :=
  s.map districtClean

/-- The punctuation removed by the three `replace` calls of
`create_match_key`: space, hyphen, period. -/
def isJunk (c : Nat) : Bool := c = 32 || c = 45 || c = 46

/-- `create_match_key` (lines 190-193) on a present name:
lower-case, strip, then remove spaces, hyphens and periods. -/
def create_match_key (s : List Nat) : List Nat :=
  (pyStrip (s.map lowerC)).filter (fun c => !isJunk c)

/-- `create_match_key` on a possibly missing name: `pd.isna` → `""`. -/
def create_match_key_O (s : Option (List Nat)) : List Nat :=
  match s with
  | none => []
  | some v => create_match_key v

/-- Lower-case then junk-filter, with no strip: `create_match_key`
factors through `districtClean` via this map. -/
def lowerNoJunk (s : List Nat) : List Nat :=
  (s.map lowerC).filter (fun c => !isJunk c)

/-! ## pandas left merge

`DataFrame.merge(..., how='left')` row semantics: each left row is paired with
every right row whose key equals its key; a left row with no match is kept
once, paired with a missing right side. -/

/-- pandas `merge(left, right, on=key, how='left')`, row level. -/
def leftMerge {A B K : Type} [DecidableEq K] (ka : A → K) (kb : B → K)
    (l : List A) (r : List B) : List (A × Option B) :=
  l.flatMap (fun a =>
    match r.filter (fun b => decide (kb b = ka a)) with
    | [] => [(a, none)]
    | ms => ms.map (fun b => (a, some b)))


/-! ## Sheet rows and the master-record builder (§4.3, lines 129-184)

The ranking sheet is force-renamed to
`['District', 'Adaptation_New', 'Mitigation_New', 'Replacement_New']`
(line 131); the recommendation, community-SIP and potential sheets are then
left-joined onto it on the `District_Clean` key (lines 141-146, 162-166,
177-181). -/

/-- A spreadsheet cell: pandas object (string) or numeric. -/
inductive CellV : Type
  | s (v : String)
  | i (v : Int)
deriving DecidableEq, Repr

/-- One row of the `Solar Suitability_new_ranking` sheet after line 131. -/
structure RankRow : Type where
  district : Option (List Nat)
  adapt : Option String
  miti : Option String
  repl : Option String
deriving DecidableEq, Repr

/-- One row of the processed `District_recommendation` sheet: `State`,
`District`, and the values of the remaining (renamed) columns. -/
structure RecRow : Type where
  state : Option String
  district : Option (List Nat)
  extras : List (Option CellV)
deriving DecidableEq, Repr

/-- One row of the `Community SIP` sheet (columns used at line 157). -/
structure SipRow : Type where
  state : Option String
  district : Option (List Nat)
  final : Option String
deriving DecidableEq, Repr

/-- One row of the `potential` sheet (columns used at line 173). -/
structure PotRow : Type where
  district : Option (List Nat)
  finalPot : Option String
deriving DecidableEq, Repr

/-- `District_Clean` of a ranking row (line 137). -/
def rankKey (r : RankRow) : Option (List Nat) := districtCleanO r.district

/-- `District_Clean` of a recommendation row (line 138). -/
def recKey (r : RecRow) : Option (List Nat) := districtCleanO r.district

/-- `District_Clean` of a community-SIP row (line 159). -/
def sipKey (r : SipRow) : Option (List Nat) := districtCleanO r.district

/-- `District_Clean` of a potential row (line 174). -/
def potKey (p : PotRow) : Option (List Nat) := districtCleanO p.district

/-- Join 1 (lines 141-146): ranking ⟕ district recommendations. -/
def step1 (ranking : List RankRow) (recs : List RecRow) :
    List (RankRow × Option RecRow) :=
  leftMerge rankKey recKey ranking recs

/-- Join 2 (lines 162-166): the running master ⟕ community SIP. -/
def step2 (ranking : List RankRow) (recs : List RecRow) (sips : List SipRow) :
    List ((RankRow × Option RecRow) × Option SipRow) :=
  leftMerge (fun p => rankKey p.1) sipKey (step1 ranking recs) sips

/-- Join 3 (lines 177-181): the running master ⟕ potential. -/
def step3 (ranking : List RankRow) (recs : List RecRow) (sips : List SipRow)
    (pots : List PotRow) :
    List (((RankRow × Option RecRow) × Option SipRow) × Option PotRow) :=
  leftMerge (fun p => rankKey p.1.1) potKey (step2 ranking recs sips) pots

/-- A master record: one row of `master_data` after line 181, with the
`Community_SIP` fill of line 169 applied. -/
structure Master : Type where
  district : Option (List Nat)
  adapt : Option String
  miti : Option String
  repl : Option String
  state : Option String
  recExtras : List (Option CellV)
  commSIP : String
  potential : Option String
deriving DecidableEq, Repr

/-- Flatten one joined row into a `Master`.  `nExtras` is the number of
extra recommendation columns; an unmatched recommendation side leaves all
of them missing. -/
def toMaster (nExtras : Nat)
    (x : ((RankRow × Option RecRow) × Option SipRow) × Option PotRow) :
    Master :=
  { district := x.1.1.1.district
    adapt := x.1.1.1.adapt
    miti := x.1.1.1.miti
    repl := x.1.1.1.repl
    state := x.1.1.2.bind RecRow.state
    recExtras :=
      match x.1.1.2 with
      | some rr => rr.extras
      | none => List.replicate nExtras none
    commSIP := (x.1.2.bind SipRow.final).getD ""
    potential := x.2.bind PotRow.finalPot }

/-- The master-record builder: lines 129-184. -/
def masterBuild (nExtras : Nat) (ranking : List RankRow) (recs : List RecRow)
    (sips : List SipRow) (pots : List PotRow) : List Master :=
  (step3 ranking recs sips pots).map (toMaster nExtras)

/-- `master_data['match_key']` (line 196): `create_match_key` applied to the
`District_Clean` column. -/
def masterKey (m : Master) : List Nat :=
  create_match_key_O (districtCleanO m.district)

/-! ## Geometry merger (§4.4, lines 186-291) and output writer (§4.5) -/

/-- A cleaned boundary feature: geometry plus its `NAME_2` district name. -/
structure Feature : Type where
  name2 : Option (List Nat)
deriving DecidableEq, Repr

/-- `gdf['match_key']` (line 200): `create_match_key` applied to `NAME_2`. -/
def featKey (f : Feature) : List Nat := create_match_key_O f.name2

/-- A merged output feature: the attribute cells written by lines 256-311.
`hasCommSI` is `Has_CommSI`, `generalSI` is `General_SI`
(`Overall_Potential`), `recVals` are the district-recommendation columns. -/
structure MFeat : Type where
  name2 : Option (List Nat)
  adapt : Option String
  miti : Option String
  repl : Option String
  generalSI : Option String
  commSIP : Option String
  hasCommSI : Option Bool
  stateName : Option String
  distName : Option (List Nat)
  recVals : List (Option CellV)
deriving DecidableEq, Repr

/-- Build one output feature from a boundary feature and its merge partner
(lines 211-216 and 256-291).  For an unmatched feature every joined cell is
missing, except `Has_CommSI`: pandas evaluates `NaN == 'Community SIP'` to
`False` (line 264), so the flag is a computed `false`, not missing. -/
def toMFeat (nExtras : Nat) (x : Feature × Option Master) : MFeat :=
  match x.2 with
  | some m =>
    { name2 := x.1.name2
      adapt := m.adapt
      miti := m.miti
      repl := m.repl
      generalSI := m.potential
      commSIP := some m.commSIP
      hasCommSI := some (decide (m.commSIP = "Community SIP"))
      stateName := m.state
      distName := m.district
      recVals := m.recExtras }
  | none =>
    { name2 := x.1.name2
      adapt := none
      miti := none
      repl := none
      generalSI := none
      commSIP := none
      hasCommSI := some false
      stateName := none
      distName := none
      recVals := List.replicate nExtras none }

/-- The geometry merge at the row-pair level (lines 211-216). -/
def geomMergePairs (feats : List Feature) (masters : List Master) :
    List (Feature × Option Master) :=
  leftMerge featKey masterKey feats masters

/-- The geometry merge producing output features (lines 211-291). -/
def geomMerge (nExtras : Nat) (feats : List Feature)
    (masters : List Master) : List MFeat :=
  (geomMergePairs feats masters).map (toMFeat nExtras)

/-- `successful_merges` (line 219): features with a non-missing
`Adaptation_New` after the merge. -/
def successfulMerges (nExtras : Nat) (feats : List Feature)
    (masters : List Master) : Nat :=
  ((geomMerge nExtras feats masters).filter (fun y => y.adapt.isSome)).length

/-- The zero-match warning condition of line 222. -/
def zeroMatchWarning (nExtras : Nat) (feats : List Feature)
    (masters : List Master) : Bool :=
  decide (successfulMerges nExtras feats masters = 0)

/-- The sample district names printed with the warning (line 224). -/
def zeroMatchSamples (feats : List Feature) : List (Option (List Nat)) :=
  (feats.map Feature.name2).take 5

/-- Column dtype, driving the fill of lines 306-311. -/
inductive DType : Type
  | obj
  | num
deriving DecidableEq, Repr

/-- Missing-value fill for one district-recommendation cell
(lines 306-311): textual columns get `"N/A"`, numeric columns get `0`. -/
def fillCell (d : DType) (c : Option CellV) : Option CellV :=
  match c with
  | some v => some v
  | none =>
    some (match d with
          | DType.obj => CellV.s "N/A"
          | DType.num => CellV.i 0)

/-- The output writer's missing-value fill (lines 293-311).  The four
category fields get `"No Data"`, the community marker the empty string, the
community flag `false`, and the recommendation columns fill by dtype;
`State_Name` and `Dist_Name` are not touched. -/
def fillFeat (dts : List DType) (y : MFeat) : MFeat :=
  { y with
    adapt := some (y.adapt.getD "No Data")
    miti := some (y.miti.getD "No Data")
    repl := some (y.repl.getD "No Data")
    generalSI := some (y.generalSI.getD "No Data")
    commSIP := some (y.commSIP.getD "")
    hasCommSI := some (y.hasCommSI.getD false)
    recVals := List.zipWith fillCell dts y.recVals }

/-- The persisted features: geometry merge followed by the fill. -/
def outFeatures (nExtras : Nat) (dts : List DType) (feats : List Feature)
    (masters : List Master) : List MFeat :=
  (geomMerge nExtras feats masters).map (fillFeat dts)

/-- End-to-end data pipeline: master build, geometry merge, fill. -/
def pipelineFeatures (nExtras : Nat) (dts : List DType)
    (feats : List Feature) (ranking : List RankRow) (recs : List RecRow)
    (sips : List SipRow) (pots : List PotRow) : List MFeat :=
  outFeatures nExtras dts feats (masterBuild nExtras ranking recs sips pots)

/-! ## Python string operations on column names

Column names are Lean `String`s; the Python `str` operations used on them
(`upper`, `startswith`, `endswith`, slicing, `replace`) are modelled
structurally on the underlying character list, with the ASCII case rule. -/

/-- Python `str.upper()` (ASCII case rule, via `Char.toUpper`). -/
def pyUpper (s : String) : String :=
  String.mk (s.data.map Char.toUpper)

/-- Python `str.startswith(p)`. -/
def pyStartsWith (s p : String) : Bool :=
  p.data.isPrefixOf s.data

/-- Python `str.endswith(p)`. -/
def pyEndsWith (s p : String) : Bool :=
  p.data.isSuffixOf s.data

/-- Python `s[:n]`. -/
def pyTake (s : String) (n : Nat) : String :=
  String.mk (s.data.take n)

/-- Worker for `str.replace(pat, '')`: remove every (non-overlapping,
leftmost-first) occurrence of `pat`.  The fuel argument (initialised to the
string length, which bounds the recursion depth) keeps the recursion
structural. -/
def removePat (pat : List Char) : Nat → List Char → List Char
  | _, [] => []
  | 0, s => s
  | fuel + 1, c :: cs =>
    if pat ≠ [] ∧ pat.isPrefixOf (c :: cs) then
      removePat pat fuel ((c :: cs).drop pat.length)
    else
      c :: removePat pat fuel cs

/-- Python `s.replace(pat, '')`. -/
def pyReplaceEmpty (s pat : String) : String :=
  String.mk (removePat pat.data s.data.length s.data)

/-! ## Acronym resolver (§4.2, lines 88-124) -/

/-- Build the acronym dictionary (lines 88-94): rows with a missing side
are skipped; a repeated `Original` label keeps the last assignment (Python
dict semantics), which the reversed association list realises under
first-match `lookup`. -/
def buildAcronym (rows : List (Option String × Option String)) :
    List (String × String) :=
  (rows.filterMap (fun r =>
    match r with
    | (some a, some b) => some (a, b)
    | _ => none)).reverse

/-- The column-renaming policy for the recommendation sheet
(lines 106-121): key columns `State`/`District` are kept, a column in the
acronym mapping is renamed to its mapped value, anything else is truncated
to its first 10 characters. -/
def newColName (am : List (String × String)) (c : String) : String :=
  if c = "State" ∨ c = "District" then c
  else
    match am.lookup c with
    | some g => g
    | none => pyTake c 10

/-! ## Schema construction (lines 28-51, 124-138, 141-321)

The column-name pipeline: which field names reach the saved shapefile. -/

/-- Schema-level input: the boundary file's column names, the acronym sheet
rows, and the recommendation sheet's column names. -/
structure SchemaIn : Type where
  gdfCols : List String
  acronymRows : List (Option String × Option String)
  recCols : List String
deriving Repr

/-- Line 37: keep `NAME`-family administrative columns. -/
def keepNameCol (c : String) : Bool :=
  pyStartsWith (pyUpper c) "NAME_" || pyUpper c = "NAME"

/-- Lines 32-45: the cleaned boundary columns (`geometry` + name columns). -/
def gdfCleanCols (si : SchemaIn) : List String :=
  "geometry" :: si.gdfCols.filter keepNameCol

/-- `df[x] = ...` on columns: append the column name if absent. -/
def addCol (cols : List String) (x : String) : List String :=
  if x ∈ cols then cols else cols ++ [x]

/-- The renamed recommendation-sheet columns (line 124). -/
def renamedRecCols (si : SchemaIn) : List String :=
  si.recCols.map (newColName (buildAcronym si.acronymRows))

/-- `district_rec_processed` columns after line 138. -/
def recProcessedCols (si : SchemaIn) : List String :=
  addCol (renamedRecCols si) "District_Clean"

/-- `master_data` columns after lines 130-137. -/
def masterCols0 : List String :=
  ["District", "Adaptation_New", "Mitigation_New", "Replacement_New",
   "District_Clean"]

/-- pandas `merge(on=key, suffixes=(sx, sy))` column result: left columns
(collision names suffixed with `sx`), then right columns minus the key
(collision names suffixed with `sy`). -/
def mergeColsOn (key sx sy : String) (left right : List String) :
    List String :=
  let leftNK := left.filter (fun c => c ≠ key)
  let rightNK := right.filter (fun c => c ≠ key)
  left.map (fun c => if c ≠ key ∧ c ∈ rightNK then c ++ sx else c) ++
    rightNK.map (fun c => if c ∈ leftNK then c ++ sy else c)

/-- Lines 149-151: drop `_district_rec`-suffixed duplicates of existing
columns. -/
def dropSuffixed (cols : List String) : List String :=
  cols.filter (fun c =>
    !(pyEndsWith c "_district_rec" &&
      cols.contains (pyReplaceEmpty c "_district_rec")))

/-- `master_data` columns after the recommendation join (lines 141-151). -/
def masterCols1 (si : SchemaIn) : List String :=
  dropSuffixed
    (mergeColsOn "District_Clean" "" "_district_rec" masterCols0
      (recProcessedCols si))

/-- `master_data` columns after the community-SIP join (lines 162-166). -/
def masterCols2 (si : SchemaIn) : List String :=
  mergeColsOn "District_Clean" "_x" "_y" (masterCols1 si)
    ["District_Clean", "Community_SIP"]

/-- `master_data` columns after the potential join (lines 177-181). -/
def masterCols3 (si : SchemaIn) : List String :=
  mergeColsOn "District_Clean" "_x" "_y" (masterCols2 si)
    ["District_Clean", "Overall_Potential"]

/-- `master_data` columns with `match_key` (line 196). -/
def masterColsK (si : SchemaIn) : List String :=
  addCol (masterCols3 si) "match_key"

/-- Cleaned boundary columns with `match_key` (line 200). -/
def gdfColsK (si : SchemaIn) : List String :=
  addCol (gdfCleanCols si) "match_key"

/-- `merged_gdf` columns straight out of the geometry merge (line 212). -/
def mergedCols0 (si : SchemaIn) : List String :=
  mergeColsOn "match_key" "_x" "_y" (gdfColsK si) (masterColsK si)

/-- Lines 231-232: drop the temporary key columns. -/
def mergedCols1 (si : SchemaIn) : List String :=
  (mergedCols0 si).filter
    (fun c => c ≠ "match_key" && c ≠ "District_Clean")

/-- Keep-first column deduplication: `df.loc[:, ~df.columns.duplicated()]`
(lines 235 and 321).  The `seen` accumulator holds names already kept. -/
def dedupFirstAux (seen : List String) : List String → List String
  | [] => []
  | c :: cs =>
    if c ∈ seen then dedupFirstAux seen cs
    else c :: dedupFirstAux (c :: seen) cs

/-- Keep the first occurrence of every column name. -/
def dedupKeepFirst (cols : List String) : List String :=
  dedupFirstAux [] cols

/-- `merged_gdf` columns after the dedup of line 235. -/
def mergedCols2 (si : SchemaIn) : List String :=
  dedupKeepFirst (mergedCols1 si)

/-- The fixed core renaming table of lines 246-254 (Python dict iteration
is insertion-ordered). -/
def coreMapping : List (String × String) :=
  [("Adaptation_New", "Adapt"), ("Mitigation_New", "Mitigate"),
   ("Replacement_New", "Replace"), ("Overall_Potential", "General_SI"),
   ("Community_SIP", "Comm_SIP"), ("State", "State_Name"),
   ("District", "Dist_Name")]

/-- One iteration of the core-renaming loop (lines 257-260): when the
source column exists, materialise the short-named copy and stage it. -/
def coreStep (st : List String × List String) (p : String × String) :
    List String × List String :=
  if p.1 ∈ st.1 then (addCol st.1 p.2, st.2 ++ [p.2]) else st

/-- Lines 238-243: the starting `essential_cols`. -/
def essential0 (si : SchemaIn) : List String :=
  "geometry" ::
    ((gdfColsK si).filter (fun c => c ≠ "geometry" ∧ c ≠ "match_key"))

/-- State (merged columns, essential columns) after the core-renaming loop
of lines 256-260. -/
def afterCore (si : SchemaIn) : List String × List String :=
  coreMapping.foldl coreStep (mergedCols2 si, essential0 si)

/-- `merged_gdf` columns after the core-renaming loop. -/
def afterCoreCols (si : SchemaIn) : List String := (afterCore si).1

/-- `essential_cols` after the core-renaming loop. -/
def afterCoreEss (si : SchemaIn) : List String := (afterCore si).2

/-- `merged_gdf` columns after the `Has_CommSI` flag creation of
lines 262-265. -/
def afterFlagCols (si : SchemaIn) : List String :=
  if "Comm_SIP" ∈ afterCoreCols si then
    addCol (afterCoreCols si) "Has_CommSI"
  else afterCoreCols si

/-- `essential_cols` after the `Has_CommSI` flag creation of
lines 262-265. -/
def afterFlagEss (si : SchemaIn) : List String :=
  if "Comm_SIP" ∈ afterCoreCols si then
    afterCoreEss si ++ ["Has_CommSI"]
  else afterCoreEss si

/-- The skip list of lines 274-277 (the boundary columns at that point
still include `match_key`). -/
def skipNames (si : SchemaIn) : List String :=
  ["geometry", "match_key", "District_Clean", "Adaptation_New",
   "Mitigation_New", "Replacement_New", "Overall_Potential", "Community_SIP",
   "State", "District", "Adapt", "Mitigate", "Replace", "General_SI",
   "Comm_SIP", "State_Name", "Dist_Name", "Has_CommSI"] ++
    (gdfColsK si).filter (fun c => c ≠ "geometry")

/-- The district-recommendation column sweep of lines 271-282: append every
merged column not in the skip list and not already claimed. -/
def addRecCols (skip : List String) (mergedCols essential : List String) :
    List String :=
  mergedCols.foldl
    (fun ess c => if c ∉ skip ∧ c ∉ ess then ess ++ [c] else ess)
    essential

/-- `essential_cols` as passed to the selection of line 291. -/
def essentialCols (si : SchemaIn) : List String :=
  addRecCols (skipNames si) (afterFlagCols si) (afterFlagEss si)

/-- Lines 317-321: deduplicate once more if duplicates remain; the result
is the saved schema. -/
def savedCols (si : SchemaIn) : List String :=
  if (essentialCols si).Nodup then essentialCols si
  else dedupKeepFirst (essentialCols si)

/-- Line 357: the summary report's community branch runs iff the final
collection has a column literally named `Has_CommSIP`. -/
def reportBranchRuns (si : SchemaIn) : Bool :=
  (savedCols si).contains "Has_CommSIP"

/-! ## Enumerated suitability levels (`legend_component.py`)

The keys of the per-category color tables of `get_category_colors` — the
fixed enumerated value sets the dashboards' color lookup drives on. -/

/-- `Adaptation` color-table keys. -/
def adaptationLevels : List String :=
  ["Less Suitable", "Moderately Suitable", "Highly Suitable",
   "Very Highly Suitable"]

/-- `Mitigation` color-table keys. -/
def mitigationLevels : List String :=
  ["Less Suitable", "Moderately Suitable", "Highly Suitable",
   "Very High Suitable"]

/-- `Replacment` color-table keys. -/
def replacementLevels : List String :=
  ["Less Suitable", "Moderately Suitable", "Highly Suitable",
   "Highly Suitable (On Grid)", "Highly Suitable (Community Wells)",
   "Highly Suitable (On Grid Community Wells)"]

/-- `General_SI` color-table keys. -/
def generalSILevels : List String :=
  ["Less Suitable", "Moderately Suitable",
   "Highly Suitable (On Grid Replacement)",
   "Highly Suitable (On Grid Community Wells)",
   "Highly Suitable (Mitigation + On Grid Replacement)",
   "Highly Suitable (Mitigation + On Grid Community We",
   "Highly Suitable (Mitigation)",
   "Highly Suitable (Adaptation + On Grid Replacement)",
   "Highly Suitable (Adaptation + On Grid Community We",
   "Highly Suitable (Adaptation + Mitigation + On Grid",
   "Highly Suitable (Adaptation + Mitigation)",
   "Highly Suitable (Adaptation )", "Highly Suitable"]

/-! ## Control flow and logging (error handling, §7)

Abstracts the run of `create_true_solar_suitability_shapefile` to its abort
conditions and output channels.  Caught failures (`except` blocks at lines
24-26, 79-81, 341-343, and the explicit returns at lines 21-23 and 205-207)
print a message via `print` — standard output — and `return False`; column
accesses at lines 90-92, 131, 138, 157, 173 are *not* wrapped, so a missing
column raises an uncaught exception, which aborts the process with a
traceback on standard error.  The zero-match condition (lines 222-225) only
prints a warning and proceeds. -/

/-- The environment of one run: which preconditions hold. -/
structure RunEnv : Type where
  shpExists : Bool
  shpReadable : Bool
  excelOk : Bool
  acronymColsOk : Bool
  rankingWidth4 : Bool
  recHasDistrict : Bool
  sipColsOk : Bool
  potColsOk : Bool
  matchColOk : Bool
  zeroMatches : Bool
  writeOk : Bool
deriving DecidableEq, Repr

/-- Outcome of a run: whether it completed, whether the output file set was
produced, and what went to each channel. -/
structure RunOutcome : Type where
  finished : Bool
  outputWritten : Bool
  stdoutLog : List String
  stderrLog : List String
deriving DecidableEq, Repr

/-- The zero-match warning lines (lines 222-225). -/
def warnLines (e : RunEnv) : List String :=
  if e.zeroMatches then
    ["Warning: No successful matches found!",
     "Sample shapefile districts", "Sample Excel districts"]
  else []

/-- Control-flow skeleton of `create_true_solar_suitability_shapefile`,
follow the source order of its abort points. -/
def runControl (e : RunEnv) : RunOutcome :=
  if !e.shpExists then
    ⟨false, false, ["Solar_Suitability_layer.shp not found!"], []⟩
  else if !e.shpReadable then
    ⟨false, false, ["Error loading shapefile"], []⟩
  else if !e.excelOk then
    ⟨false, false, ["Error loading Excel file"], []⟩
  else if !e.acronymColsOk then
    ⟨false, false, [], ["Traceback: KeyError on acronym sheet column"]⟩
  else if !e.rankingWidth4 then
    ⟨false, false, [], ["Traceback: ValueError on ranking relabel"]⟩
  else if !e.recHasDistrict then
    ⟨false, false, [], ["Traceback: KeyError on recommendation District"]⟩
  else if !e.sipColsOk then
    ⟨false, false, [], ["Traceback: KeyError on community sheet columns"]⟩
  else if !e.potColsOk then
    ⟨false, false, [], ["Traceback: KeyError on potential sheet columns"]⟩
  else if !e.matchColOk then
    ⟨false, false, ["No suitable district column found in shapefile"], []⟩
  else if !e.writeOk then
    ⟨false, false, warnLines e ++ ["Error saving shapefile"], []⟩
  else
    ⟨true, true, warnLines e ++ ["Successfully saved"], []⟩

/-- An all-good environment. -/
def goodEnv : RunEnv :=
  ⟨true, true, true, true, true, true, true, true, true, false, true⟩

/-- Does the environment trip any abort condition of the run? -/
def anyFailure (e : RunEnv) : Bool :=
  !e.shpExists || !e.shpReadable || !e.excelOk || !e.acronymColsOk ||
    !e.rankingWidth4 || !e.recHasDistrict || !e.sipColsOk || !e.potColsOk ||
    !e.matchColOk || !e.writeOk

/-! ## Auxiliary definitions and concrete fixtures -/

/-- Code points of a Lean string, for readable district-name literals. -/
def strCodes (s : String) : List Nat := s.data.map Char.toNat

/-- The §4.1 match key a ranking row ends up with in `master_data`. -/
def rankMatchKey (r : RankRow) : List Nat :=
  create_match_key_O (rankKey r)

/-- Boolean membership of an optional cell value in a value list
(missing counts as acceptable: it is handled by the fill). -/
def optInB (o : Option String) (ls : List String) : Bool :=
  match o with
  | none => true
  | some v => ls.contains v

/-- Fixture: a boundary feature for district `Pune`. -/
def cFeat : Feature := ⟨some (strCodes "Pune")⟩

/-- Fixture: a master record keyed `pune` with full category data. -/
def cMasterA : Master :=
  ⟨some (strCodes "pune"), some "Highly Suitable", some "Highly Suitable",
   some "Less Suitable", some "Maharashtra", [], "Community SIP",
   some "Less Suitable"⟩

/-- Fixture: a second master record whose district normalizes to the same
match key `pune`. -/
def cMasterB : Master :=
  ⟨some (strCodes "Pune "), none, none, none, none, [], "", none⟩

/-- Fixture: a ranking row for `Pune`. -/
def cRank : RankRow :=
  ⟨some (strCodes "Pune"), some "Highly Suitable",
   some "Moderately Suitable", some "Less Suitable"⟩

/-- Fixture: a ranking row whose adaptation cell holds a value outside the
legend's enumerated levels. -/
def badRank : RankRow :=
  ⟨some (strCodes "Pune"), some "Banana", none, none⟩

/-- Fixture: a recommendation row for `Pune`. -/
def cRecA : RecRow := ⟨some "Maharashtra", some (strCodes "Pune"), []⟩

/-- Fixture: a second recommendation row with the same cleaned district. -/
def cRecB : RecRow := ⟨some "Maharashtra", some (strCodes "pune"), []⟩

/-- Fixture: a ranking row whose raw district carries extra whitespace. -/
def wsRank : RankRow := ⟨some (strCodes " pune "), none, none, none⟩

/-- Fixture: a recommendation row with the district in upper case. -/
def upRec : RecRow := ⟨none, some (strCodes "PUNE"), []⟩

/-- Fixture: a merged feature with every joined cell missing. -/
def emptyMFeat : MFeat :=
  ⟨some (strCodes "Pune"), none, none, none, none, none, none, none, none,
   [none]⟩

/-- Fixture: environment whose boundary file is absent. -/
def missingShpEnv : RunEnv :=
  ⟨false, true, true, true, true, true, true, true, true, false, true⟩

/-- Fixture: environment whose output destination cannot be written. -/
def writeFailEnv : RunEnv :=
  ⟨true, true, true, true, true, true, true, true, true, false, false⟩

/-- Fixture: healthy environment in which no boundary feature matched. -/
def zeroEnv : RunEnv :=
  ⟨true, true, true, true, true, true, true, true, true, true, true⟩

/-- Fixture: schema input whose acronym sheet maps a recommendation column
to the name `Has_CommSIP`. -/
def hcsSchema : SchemaIn :=
  ⟨["geometry", "NAME_1", "NAME_2"],
   [(some "Ground Water", some "Has_CommSIP")],
   ["State", "District", "Ground Water"]⟩

/-- Fixture: schema input with no acronym mapping at all. -/
def cleanSchema : SchemaIn :=
  ⟨["geometry", "NAME_2"], [],
   ["State", "District", "Groundwater Development Status"]⟩


/-! # Theorems

All definitions are above; everything below is proof. -/

/-! ## Name-normalizer lemmas -/

theorem lowerC_lowerC (c : Nat) : lowerC (lowerC c) = lowerC c := by
  unfold lowerC
  by_cases h : 65 ≤ c ∧ c ≤ 90
  · rw [if_pos h, if_neg (by omega : ¬(65 ≤ c + 32 ∧ c + 32 ≤ 90))]
  · rw [if_neg h, if_neg h]

theorem lowerC_upperC (c : Nat) : lowerC (upperC c) = lowerC c := by
  unfold lowerC upperC
  by_cases h : 97 ≤ c ∧ c ≤ 122
  · rw [if_pos h, if_pos (by omega : 65 ≤ c - 32 ∧ c - 32 ≤ 90),
      if_neg (by omega : ¬(65 ≤ c ∧ c ≤ 90))]
    omega
  · rw [if_neg h]

theorem isWS_lowerC (c : Nat) : isWS (lowerC c) = isWS c := by
  unfold lowerC
  by_cases h : 65 ≤ c ∧ c ≤ 90
  · rw [if_pos h]
    have h1 : isWS (c + 32) = false := by simp [isWS]; omega
    have h2 : isWS c = false := by simp [isWS]; omega
    rw [h1, h2]
  · rw [if_neg h]

theorem map_lowerC_titleAux (b : Bool) (s : List Nat) :
    (titleAux b s).map lowerC = s.map lowerC := by
  induction s generalizing b with
  | nil => rfl
  | cons c cs ih =>
    unfold titleAux
    by_cases h : isAlphaC c
    · simp only [h, if_pos]
      cases b <;> simp [ih, lowerC_lowerC, lowerC_upperC]
    · simp [h, ih]

theorem map_lowerC_pyTitle (s : List Nat) :
    (pyTitle s).map lowerC = s.map lowerC := map_lowerC_titleAux false s

theorem dropWhile_map_lowerC (s : List Nat) :
    (s.map lowerC).dropWhile isWS = (s.dropWhile isWS).map lowerC := by
  induction s with
  | nil => rfl
  | cons c cs ih =>
    by_cases h : isWS c = true
    · rw [List.map_cons, List.dropWhile_cons, List.dropWhile_cons, isWS_lowerC,
        if_pos h, if_pos h, ih]
    · rw [List.map_cons, List.dropWhile_cons, List.dropWhile_cons, isWS_lowerC,
        if_neg h, if_neg h, List.map_cons]

theorem pyStrip_map_lowerC (s : List Nat) :
    pyStrip (s.map lowerC) = (pyStrip s).map lowerC := by
  unfold pyStrip
  rw [dropWhile_map_lowerC, ← List.map_reverse, dropWhile_map_lowerC,
    List.map_reverse]

/-- `create_match_key` is a function of `District_Clean`: stripping after
title-casing loses nothing that the lower-case/strip/filter chain keeps. -/
theorem create_match_key_factors (s : List Nat) :
    create_match_key s = lowerNoJunk (districtClean s) := by
  unfold create_match_key lowerNoJunk districtClean
  rw [← pyStrip_map_lowerC (pyTitle s), map_lowerC_pyTitle]

theorem create_match_key_O_factors (s : Option (List Nat)) :
    create_match_key_O s =
      (match districtCleanO s with
       | none => []
       | some v => lowerNoJunk v) := by
  cases s with
  | none => rfl
  | some v =>
    simp only [create_match_key_O, districtCleanO, Option.map_some]
    exact create_match_key_factors v

/-- Rows whose `District_Clean` keys agree have equal §4.1 match keys. -/
theorem create_match_key_O_congr (a b : Option (List Nat))
    (h : districtCleanO a = districtCleanO b) :
    create_match_key_O a = create_match_key_O b := by
  rw [create_match_key_O_factors, create_match_key_O_factors, h]

/-! ## Left-merge lemmas -/

theorem leftMerge_nil {A B K : Type} [DecidableEq K] (ka : A → K) (kb : B → K)
    (r : List B) : leftMerge ka kb [] r = [] := rfl

theorem leftMerge_cons {A B K : Type} [DecidableEq K] (ka : A → K) (kb : B → K)
    (a : A) (l : List A) (r : List B) :
    leftMerge ka kb (a :: l) r =
      (match r.filter (fun b => decide (kb b = ka a)) with
       | [] => [(a, none)]
       | ms => ms.map (fun b => (a, some b))) ++ leftMerge ka kb l r := by
  unfold leftMerge
  rw [List.flatMap_cons]

/-- A left merge never shrinks the left side. -/
theorem length_leftMerge_ge {A B K : Type} [DecidableEq K] (ka : A → K)
    (kb : B → K) (l : List A) (r : List B) :
    l.length ≤ (leftMerge ka kb l r).length := by
  induction l with
  | nil => simp [leftMerge_nil]
  | cons a t ih =>
    rw [leftMerge_cons, List.length_append, List.length_cons]
    cases hf : r.filter (fun b => decide (kb b = ka a)) with
    | nil =>
      simp only [List.length_singleton]
      omega
    | cons b ms =>
      simp only [List.length_map, List.length_cons]
      omega

/-- Every left row survives a left merge (paired with some match status). -/
theorem mem_leftMerge_of_mem {A B K : Type} [DecidableEq K] (ka : A → K)
    (kb : B → K) (l : List A) (r : List B) (a : A) (ha : a ∈ l) :
    ∃ ob, (a, ob) ∈ leftMerge ka kb l r := by
  induction l with
  | nil => cases ha
  | cons x t ih =>
    rw [leftMerge_cons]
    rcases List.mem_cons.mp ha with h | h
    · subst h
      cases hf : r.filter (fun b => decide (kb b = ka a)) with
      | nil => exact ⟨none, List.mem_append_left _ (List.mem_singleton.mpr rfl)⟩
      | cons b ms =>
        refine ⟨some b, List.mem_append_left _ ?_⟩
        simp
    · obtain ⟨ob, hob⟩ := ih h
      exact ⟨ob, List.mem_append_right _ hob⟩

/-- A matched pair produced by the left merge really is a key match. -/
theorem leftMerge_key_eq {A B K : Type} [DecidableEq K] (ka : A → K)
    (kb : B → K) (l : List A) (r : List B) (a : A) (b : B)
    (h : (a, some b) ∈ leftMerge ka kb l r) : kb b = ka a ∧ b ∈ r := by
  induction l with
  | nil => cases h
  | cons x t ih =>
    rw [leftMerge_cons] at h
    rcases List.mem_append.mp h with h | h
    · cases hf : r.filter (fun b => decide (kb b = ka x)) with
      | nil =>
        rw [hf] at h
        simp at h
      | cons y ms =>
        rw [hf] at h
        obtain ⟨z, hz, hzeq⟩ := List.mem_map.mp h
        have hxa : x = a := congrArg Prod.fst hzeq
        have hzb : some z = some b := congrArg Prod.snd hzeq
        have hzr : z ∈ r.filter (fun b => decide (kb b = ka x)) := by
          rw [hf]; exact hz
        have := List.mem_filter.mp hzr
        refine ⟨?_, ?_⟩
        · rw [← Option.some_inj.mp hzb, ← hxa]
          exact of_decide_eq_true this.2
        · rw [← Option.some_inj.mp hzb]
          exact this.1
    · exact ih h

/-- An unmatched pair means no right row carries the key. -/
theorem leftMerge_none_no_match {A B K : Type} [DecidableEq K] (ka : A → K)
    (kb : B → K) (l : List A) (r : List B) (a : A)
    (h : (a, none) ∈ leftMerge ka kb l r) : ∀ b ∈ r, kb b ≠ ka a := by
  induction l with
  | nil => cases h
  | cons x t ih =>
    rw [leftMerge_cons] at h
    rcases List.mem_append.mp h with h | h
    · cases hf : r.filter (fun b => decide (kb b = ka x)) with
      | nil =>
        rw [hf] at h
        have hxa : x = a := by
          have hs := (List.mem_singleton.mp h).symm
          exact ((Prod.mk.injEq _ _ _ _).mp hs).1
        intro b hb hk
        have : b ∈ r.filter (fun b => decide (kb b = ka x)) :=
          List.mem_filter.mpr ⟨hb, decide_eq_true (hxa ▸ hk)⟩
        rw [hf] at this
        cases this
      | cons y ms =>
        rw [hf] at h
        obtain ⟨z, _, hzeq⟩ := List.mem_map.mp h
        have : (some z : Option B) = none := congrArg Prod.snd hzeq
        cases this
    · exact ih h

/-- If right keys are pairwise distinct, each key filters to at most one row. -/
theorem filter_key_len_le_one {B K : Type} [DecidableEq K] (kb : B → K)
    (r : List B) (hr : (r.map kb).Nodup) (k : K) :
    (r.filter (fun b => decide (kb b = k))).length ≤ 1 := by
  induction r with
  | nil => simp
  | cons b t ih =>
    rw [List.map_cons, List.nodup_cons] at hr
    rw [List.filter_cons]
    by_cases h : kb b = k
    · rw [if_pos (decide_eq_true h)]
      have hnil : t.filter (fun b => decide (kb b = k)) = [] := by
        rw [List.filter_eq_nil_iff]
        intro x hx hxk
        exact hr.1
          (List.mem_map.mpr ⟨x, hx, (of_decide_eq_true hxk).trans h.symm⟩)
      rw [hnil]
      simp
    · rw [if_neg (by simpa using h)]
      exact ih hr.2

/-- With at-most-one match per key, the left merge reproduces the left rows. -/
theorem leftMerge_map_fst {A B K : Type} [DecidableEq K] (ka : A → K)
    (kb : B → K) (l : List A) (r : List B)
    (hu : ∀ k, (r.filter (fun b => decide (kb b = k))).length ≤ 1) :
    (leftMerge ka kb l r).map Prod.fst = l := by
  induction l with
  | nil => rfl
  | cons a t ih =>
    rw [leftMerge_cons, List.map_append, ih]
    cases hf : r.filter (fun b => decide (kb b = ka a)) with
    | nil => rfl
    | cons b ms =>
      have := hu (ka a)
      rw [hf] at this
      have hms : ms = [] := by
        cases ms with
        | nil => rfl
        | cons _ _ => simp at this
      subst hms
      rfl

/-- With at-most-one match per key, the output size equals the left size. -/
theorem leftMerge_length_eq {A B K : Type} [DecidableEq K] (ka : A → K)
    (kb : B → K) (l : List A) (r : List B)
    (hu : ∀ k, (r.filter (fun b => decide (kb b = k))).length ≤ 1) :
    (leftMerge ka kb l r).length = l.length := by
  have := leftMerge_map_fst ka kb l r hu
  calc (leftMerge ka kb l r).length
      = ((leftMerge ka kb l r).map Prod.fst).length := (List.length_map _ _).symm
    _ = l.length := by rw [this]

/-- Keys of the merged rows, read off the left component. -/
theorem leftMerge_keys_eq {A B K : Type} [DecidableEq K] (ka : A → K)
    (kb : B → K) (l : List A) (r : List B)
    (hu : ∀ k, (r.filter (fun b => decide (kb b = k))).length ≤ 1) :
    (leftMerge ka kb l r).map (fun p => ka p.1) = l.map ka := by
  have h := leftMerge_map_fst ka kb l r hu
  calc (leftMerge ka kb l r).map (fun p => ka p.1)
      = ((leftMerge ka kb l r).map Prod.fst).map ka := by
        rw [List.map_map]; rfl
    _ = l.map ka := by rw [h]


/-- The left component of any merged row comes from the left input. -/
theorem leftMerge_fst_mem {A B K : Type} [DecidableEq K] (ka : A → K)
    (kb : B → K) (l : List A) (r : List B) (p : A × Option B)
    (h : p ∈ leftMerge ka kb l r) : p.1 ∈ l := by
  induction l with
  | nil => cases h
  | cons x t ih =>
    rw [leftMerge_cons] at h
    rcases List.mem_append.mp h with h | h
    · cases hf : r.filter (fun b => decide (kb b = ka x)) with
      | nil =>
        rw [hf] at h
        rw [List.mem_singleton.mp h]
        exact List.mem_cons_self x t
      | cons y ms =>
        rw [hf] at h
        obtain ⟨z, _, hzeq⟩ := List.mem_map.mp h
        rw [← hzeq]
        exact List.mem_cons_self x t
    · exact List.mem_cons_of_mem x (ih h)

/-! ## Helper lemmas on the pipeline pieces -/

theorem toMFeat_name2 (n : Nat) (x : Feature × Option Master) :
    (toMFeat n x).name2 = x.1.name2 := by
  rcases x with ⟨f, _ | m⟩ <;> rfl

theorem zipWith_get? {α β γ : Type} (f : α → β → γ) (as : List α)
    (bs : List β) (i : Nat) (a : α) (b : β) (ha : as.get? i = some a)
    (hb : bs.get? i = some b) :
    (List.zipWith f as bs).get? i = some (f a b) := by
  induction as generalizing bs i with
  | nil => cases ha
  | cons x xs ih =>
    cases bs with
    | nil => cases hb
    | cons y ys =>
      cases i with
      | zero =>
        cases ha
        cases hb
        rfl
      | succ j =>
        simpa using ih ys j ha hb

theorem dedupFirstAux_nodup (l : List String) (seen : List String) :
    (dedupFirstAux seen l).Nodup ∧ ∀ x ∈ dedupFirstAux seen l, x ∉ seen := by
  induction l generalizing seen with
  | nil => simp [dedupFirstAux]
  | cons c cs ih =>
    unfold dedupFirstAux
    by_cases h : c ∈ seen
    · rw [if_pos h]
      exact ih seen
    · rw [if_neg h]
      obtain ⟨hn, hs⟩ := ih (c :: seen)
      refine ⟨List.nodup_cons.mpr ⟨fun hc => (hs c hc) (List.mem_cons_self _ _), hn⟩, ?_⟩
      intro x hx
      rcases List.mem_cons.mp hx with rfl | hx2
      · exact h
      · intro hxs
        exact (hs x hx2) (List.mem_cons_of_mem _ hxs)

theorem dedupKeepFirst_nodup (l : List String) : (dedupKeepFirst l).Nodup :=
  (dedupFirstAux_nodup l []).1

theorem mem_of_mem_dedupFirstAux (l seen : List String) (x : String)
    (h : x ∈ dedupFirstAux seen l) : x ∈ l := by
  induction l generalizing seen with
  | nil => cases h
  | cons c cs ih =>
    unfold dedupFirstAux at h
    by_cases hc : c ∈ seen
    · rw [if_pos hc] at h
      exact List.mem_cons_of_mem _ (ih seen h)
    · rw [if_neg hc] at h
      rcases List.mem_cons.mp h with rfl | h2
      · exact List.mem_cons_self _ _
      · exact List.mem_cons_of_mem _ (ih (c :: seen) h2)

theorem mem_of_mem_dedupKeepFirst (l : List String) (x : String)
    (h : x ∈ dedupKeepFirst l) : x ∈ l :=
  mem_of_mem_dedupFirstAux l [] x h

theorem mem_addCol (cols : List String) (c x : String)
    (h : x ∈ addCol cols c) : x ∈ cols ∨ x = c := by
  unfold addCol at h
  by_cases hc : c ∈ cols
  · rw [if_pos hc] at h
    exact Or.inl h
  · rw [if_neg hc] at h
    rcases List.mem_append.mp h with h | h
    · exact Or.inl h
    · exact Or.inr (List.mem_singleton.mp h)


/-! ## String lemmas for column-name tracing -/

theorem string_append_empty_right (s : String) : s ++ "" = s := by
  apply String.ext
  rw [String.data_append]
  simp

theorem string_append_right_ne (s u t v : String)
    (hlen : t.data.length = v.data.length) (hne : t ≠ v) :
    s ++ t ≠ u ++ v := by
  intro h
  have hd := congrArg String.data h
  rw [String.data_append, String.data_append] at hd
  exact hne (String.ext (List.append_inj' hd hlen).2)

theorem append_x_ne_hcs (s : String) : s ++ "_x" ≠ "Has_CommSIP" := by
  have hsplit : "Has_CommSIP" = "Has_CommS" ++ "IP" := by decide
  rw [hsplit]
  exact string_append_right_ne s "Has_CommS" "_x" "IP" (by decide) (by decide)

theorem append_y_ne_hcs (s : String) : s ++ "_y" ≠ "Has_CommSIP" := by
  have hsplit : "Has_CommSIP" = "Has_CommS" ++ "IP" := by decide
  rw [hsplit]
  exact string_append_right_ne s "Has_CommS" "_y" "IP" (by decide) (by decide)

theorem append_rec_ne_hcs (s : String) :
    s ++ "_district_rec" ≠ "Has_CommSIP" := by
  intro h
  have hd := congrArg String.length h
  rw [String.length_append] at hd
  have h13 : ("_district_rec" : String).length = 13 := by decide
  have h11 : ("Has_CommSIP" : String).length = 11 := by decide
  omega

/-! ## Schema membership-tracing lemmas -/

theorem mem_mergeColsOn (key sx sy : String) (left right : List String)
    (x : String) (h : x ∈ mergeColsOn key sx sy left right) :
    (∃ c ∈ left, x = c ∨ x = c ++ sx) ∨
      (∃ c ∈ right, x = c ∨ x = c ++ sy) := by
  unfold mergeColsOn at h
  rcases List.mem_append.mp h with h | h
  · obtain ⟨c, hc, hce⟩ := List.mem_map.mp h
    refine Or.inl ⟨c, hc, ?_⟩
    by_cases hcc : c ≠ key ∧ c ∈ right.filter (fun c => c ≠ key)
    · rw [if_pos hcc] at hce
      exact Or.inr hce.symm
    · rw [if_neg hcc] at hce
      exact Or.inl hce.symm
  · obtain ⟨c, hc, hce⟩ := List.mem_map.mp h
    have hcr : c ∈ right := (List.mem_filter.mp hc).1
    refine Or.inr ⟨c, hcr, ?_⟩
    by_cases hcc : c ∈ left.filter (fun c => c ≠ key)
    · rw [if_pos hcc] at hce
      exact Or.inr hce.symm
    · rw [if_neg hcc] at hce
      exact Or.inl hce.symm

theorem mem_coreFold (ps : List (String × String))
    (mc ess : List String) :
    (∀ x ∈ (ps.foldl coreStep (mc, ess)).1,
        x ∈ mc ∨ x ∈ ps.map Prod.snd) ∧
      (∀ x ∈ (ps.foldl coreStep (mc, ess)).2,
        x ∈ ess ∨ x ∈ ps.map Prod.snd) := by
  induction ps generalizing mc ess with
  | nil => simp
  | cons p ps ih =>
    rw [List.foldl_cons]
    unfold coreStep
    by_cases hp : p.1 ∈ mc
    · rw [if_pos hp]
      obtain ⟨ih1, ih2⟩ := ih (addCol mc p.2) (ess ++ [p.2])
      constructor
      · intro x hx
        rcases ih1 x hx with hx1 | hx1
        · rcases mem_addCol mc p.2 x hx1 with hx2 | hx2
          · exact Or.inl hx2
          · refine Or.inr ?_
            rw [List.map_cons, hx2]
            exact List.mem_cons_self _ _
        · refine Or.inr ?_
          rw [List.map_cons]
          exact List.mem_cons_of_mem _ hx1
      · intro x hx
        rcases ih2 x hx with hx1 | hx1
        · rcases List.mem_append.mp hx1 with hx2 | hx2
          · exact Or.inl hx2
          · refine Or.inr ?_
            rw [List.map_cons, List.mem_singleton.mp hx2]
            exact List.mem_cons_self _ _
        · refine Or.inr ?_
          rw [List.map_cons]
          exact List.mem_cons_of_mem _ hx1
    · rw [if_neg hp]
      obtain ⟨ih1, ih2⟩ := ih mc ess
      constructor
      · intro x hx
        rcases ih1 x hx with hx1 | hx1
        · exact Or.inl hx1
        · refine Or.inr ?_
          rw [List.map_cons]
          exact List.mem_cons_of_mem _ hx1
      · intro x hx
        rcases ih2 x hx with hx1 | hx1
        · exact Or.inl hx1
        · refine Or.inr ?_
          rw [List.map_cons]
          exact List.mem_cons_of_mem _ hx1

theorem mem_addRecCols (skip mc : List String) :
    ∀ (ess : List String) (x : String),
      x ∈ addRecCols skip mc ess → x ∈ ess ∨ x ∈ mc := by
  induction mc with
  | nil =>
    intro ess x h
    exact Or.inl h
  | cons c cs ih =>
    intro ess x h
    unfold addRecCols at h
    rw [List.foldl_cons] at h
    have h2 := ih (if c ∉ skip ∧ c ∉ ess then ess ++ [c] else ess) x h
    rcases h2 with h1 | h1
    · by_cases hc : c ∉ skip ∧ c ∉ ess
      · rw [if_pos hc] at h1
        rcases List.mem_append.mp h1 with h2 | h2
        · exact Or.inl h2
        · refine Or.inr ?_
          rw [List.mem_singleton.mp h2]
          exact List.mem_cons_self _ _
      · rw [if_neg hc] at h1
        exact Or.inl h1
    · exact Or.inr (List.mem_cons_of_mem _ h1)


/-! ## Claim theorems -/

/-- C1: each of the three master-builder joins (recommendation,
community-program, potential) pairs a base row with a joined row only when
the §4.1 normalization (`create_match_key`) of the base row's district name
equals the §4.1 normalization of the joined row's district name.  The joins
run on the `District_Clean` key, which refines the §4.1 key. -/
theorem master_joins_agree_on_normalized_key (ranking : List RankRow)
    (recs : List RecRow) (sips : List SipRow) (pots : List PotRow) :
    (∀ p ∈ step1 ranking recs, ∀ b, p.2 = some b →
        create_match_key_O p.1.district = create_match_key_O b.district) ∧
      (∀ p ∈ step2 ranking recs sips, ∀ b, p.2 = some b →
        create_match_key_O p.1.1.district = create_match_key_O b.district) ∧
      (∀ p ∈ step3 ranking recs sips pots, ∀ b, p.2 = some b →
        create_match_key_O p.1.1.1.district =
          create_match_key_O b.district) := by
  refine ⟨?_, ?_, ?_⟩
  · rintro ⟨a, ob⟩ hp b hb
    have hb2 : ob = some b := hb
    subst hb2
    have h := leftMerge_key_eq rankKey recKey ranking recs a b hp
    exact create_match_key_O_congr a.district b.district h.1.symm
  · rintro ⟨a, ob⟩ hp b hb
    have hb2 : ob = some b := hb
    subst hb2
    have hp2 : (a, some b) ∈
        leftMerge (fun p => rankKey p.1) sipKey (step1 ranking recs) sips :=
      hp
    have h := leftMerge_key_eq (fun p => rankKey p.1) sipKey
      (step1 ranking recs) sips a b hp2
    exact create_match_key_O_congr a.1.district b.district h.1.symm
  · rintro ⟨a, ob⟩ hp b hb
    have hb2 : ob = some b := hb
    subst hb2
    have hp2 : (a, some b) ∈
        leftMerge (fun p => rankKey p.1.1) potKey
          (step2 ranking recs sips) pots :=
      hp
    have h := leftMerge_key_eq (fun p => rankKey p.1.1) potKey
      (step2 ranking recs sips) pots a b hp2
    exact create_match_key_O_congr a.1.1.district b.district h.1.symm

/-- C1 witness: the recommendation join pairs the ranking row for
`" pune "` with the recommendation row for `"PUNE"` (equal `District_Clean`
keys), and indeed their §4.1 match keys agree. -/
theorem master_joins_agree_on_normalized_key_witness :
    create_match_key_O wsRank.district = create_match_key_O upRec.district :=
  (master_joins_agree_on_normalized_key [wsRank] [upRec] [] []).1
    (wsRank, some upRec) (by decide) upRec rfl

/-- C5: the saved schema never carries two equal field names — the
keep-first column deduplication of lines 235/317-321 makes the persisted
column list pairwise distinct for every schema input. -/
theorem saved_schema_nodup (si : SchemaIn) : (savedCols si).Nodup := by
  unfold savedCols
  by_cases h : (essentialCols si).Nodup
  · rw [if_pos h]
    exact h
  · rw [if_neg h]
    exact dedupKeepFirst_nodup _

/-- C6: renaming a non-key recommendation column uses the acronym lookup
when the label is mapped and otherwise truncates to the first 10
characters; in particular an unmapped `"Groundwater Development Status"`
becomes `"Groundwate"`. -/
theorem rec_column_rename_policy (rows : List (Option String × Option String))
    (c : String) (hs : c ≠ "State") (hd : c ≠ "District") :
    (∀ g, (buildAcronym rows).lookup c = some g →
        newColName (buildAcronym rows) c = g) ∧
      ((buildAcronym rows).lookup c = none →
        newColName (buildAcronym rows) c = pyTake c 10) ∧
      newColName (buildAcronym []) "Groundwater Development Status" =
        "Groundwate" := by
  refine ⟨?_, ?_, by decide⟩
  · intro g hg
    unfold newColName
    rw [if_neg (not_or.mpr ⟨hs, hd⟩), hg]
  · intro hg
    unfold newColName
    rw [if_neg (not_or.mpr ⟨hs, hd⟩), hg]

/-- C6 witness: a mapped column is renamed to its acronym; the unmapped
30-character groundwater label truncates to `"Groundwate"`. -/
theorem rec_column_rename_policy_witness :
    newColName (buildAcronym [(some "Cropping Intensity", some "CI_1")])
        "Cropping Intensity" = "CI_1" ∧
      newColName (buildAcronym []) "Groundwater Development Status" =
        "Groundwate" := by
  have h := rec_column_rename_policy
    [(some "Cropping Intensity", some "CI_1")] "Cropping Intensity"
    (by decide) (by decide)
  exact ⟨h.1 "CI_1" (by decide), h.2.2⟩


/-- C2 counterexample: the geometry merge is *not* always count-preserving.
One boundary feature whose key matches two master records produces two
output features, so `|output| = |input boundary features|` fails. -/
theorem geom_merge_count_counterexample :
    (geomMerge 0 [cFeat] [cMasterA, cMasterB]).length ≠ [cFeat].length := by
  decide

/-- C2 (amended): the geometry merge is a left join on the boundary side —
every boundary feature appears in the output and no feature is dropped
(`|output| ≥ |input|`); the count equality `|output| = |input|` holds
whenever the master records' match keys are pairwise distinct (a master key
matched by several boundary-side duplicates of itself multiplies rows). -/
theorem geom_merge_left_join (nExtras : Nat) (feats : List Feature)
    (masters : List Master) :
    feats.length ≤ (geomMerge nExtras feats masters).length ∧
      (∀ f ∈ feats, ∃ y ∈ geomMerge nExtras feats masters,
        y.name2 = f.name2) ∧
      ((masters.map masterKey).Nodup →
        (geomMerge nExtras feats masters).length = feats.length) := by
  refine ⟨?_, ?_, ?_⟩
  · unfold geomMerge geomMergePairs
    rw [List.length_map]
    exact length_leftMerge_ge featKey masterKey feats masters
  · intro f hf
    obtain ⟨ob, hob⟩ := mem_leftMerge_of_mem featKey masterKey feats masters f hf
    refine ⟨toMFeat nExtras (f, ob), ?_, ?_⟩
    · unfold geomMerge geomMergePairs
      exact List.mem_map.mpr ⟨(f, ob), hob, rfl⟩
    · exact toMFeat_name2 nExtras (f, ob)
  · intro hnd
    unfold geomMerge geomMergePairs
    rw [List.length_map]
    exact leftMerge_length_eq featKey masterKey feats masters
      (filter_key_len_le_one masterKey masters hnd)

/-- C2 witness: with a single master record the merge keeps the single
boundary feature, preserves its name, and the counts agree. -/
theorem geom_merge_left_join_witness :
    [cFeat].length ≤ (geomMerge 0 [cFeat] [cMasterA]).length ∧
      (∃ y ∈ geomMerge 0 [cFeat] [cMasterA], y.name2 = cFeat.name2) ∧
      (geomMerge 0 [cFeat] [cMasterA]).length = [cFeat].length := by
  have h := geom_merge_left_join 0 [cFeat] [cMasterA]
  exact ⟨h.1, h.2.1 cFeat (by decide), h.2.2 (by decide)⟩

/-- C3 counterexample: the pipeline never deduplicates master rows on the
key.  A recommendation sheet with two rows for the same cleaned district
leaves two master records with the same normalized key after the joins. -/
theorem master_rows_duplicate_counterexample :
    ¬ ((masterBuild 0 [cRank] [cRecA, cRecB] [] []).map masterKey).Nodup ∧
      (masterBuild 0 [cRank] [cRecA, cRecB] [] []).length = 2 := by
  decide

/-- C3 (amended): the pipeline performs no per-key deduplication; the
at-most-one-master-per-key invariant holds exactly when the sources are
already key-unique — if the ranking rows have pairwise-distinct §4.1 match
keys and each joined sheet has pairwise-distinct `District_Clean` keys,
then the built master set has pairwise-distinct match keys and one row per
ranking row. -/
theorem master_build_unique_keys (n : Nat) (ranking : List RankRow)
    (recs : List RecRow) (sips : List SipRow) (pots : List PotRow)
    (h1 : (ranking.map rankMatchKey).Nodup)
    (h2 : (recs.map recKey).Nodup)
    (h3 : (sips.map sipKey).Nodup)
    (h4 : (pots.map potKey).Nodup) :
    ((masterBuild n ranking recs sips pots).map masterKey).Nodup ∧
      (masterBuild n ranking recs sips pots).length = ranking.length := by
  have u2 := filter_key_len_le_one recKey recs h2
  have u3 := filter_key_len_le_one sipKey sips h3
  have u4 := filter_key_len_le_one potKey pots h4
  have e1 : (step1 ranking recs).map Prod.fst = ranking :=
    leftMerge_map_fst rankKey recKey ranking recs u2
  have e2 : (step2 ranking recs sips).map Prod.fst = step1 ranking recs := by
    unfold step2
    exact leftMerge_map_fst _ sipKey (step1 ranking recs) sips u3
  have e3 : (step3 ranking recs sips pots).map Prod.fst =
      step2 ranking recs sips := by
    unfold step3
    exact leftMerge_map_fst _ potKey (step2 ranking recs sips) pots u4
  have hkeys : (masterBuild n ranking recs sips pots).map masterKey =
      ranking.map rankMatchKey := by
    calc (masterBuild n ranking recs sips pots).map masterKey
        = (step3 ranking recs sips pots).map
            (fun x => rankMatchKey x.1.1.1) := by
          unfold masterBuild
          rw [List.map_map]
          rfl
      _ = ((step3 ranking recs sips pots).map Prod.fst).map
            (fun q => rankMatchKey q.1.1) := by
          rw [List.map_map]
          rfl
      _ = (step2 ranking recs sips).map (fun q => rankMatchKey q.1.1) := by
          rw [e3]
      _ = ((step2 ranking recs sips).map Prod.fst).map
            (fun q => rankMatchKey q.1) := by
          rw [List.map_map]
          rfl
      _ = (step1 ranking recs).map (fun q => rankMatchKey q.1) := by
          rw [e2]
      _ = ((step1 ranking recs).map Prod.fst).map rankMatchKey := by
          rw [List.map_map]
          rfl
      _ = ranking.map rankMatchKey := by
          rw [e1]
  constructor
  · rw [hkeys]
    exact h1
  · have hl : (masterBuild n ranking recs sips pots).length =
        (ranking.map rankMatchKey).length := by
      rw [← hkeys, List.length_map]
    rw [List.length_map] at hl
    exact hl

/-- C3 witness: key-unique sources yield a key-unique master set of the
base's size. -/
theorem master_build_unique_keys_witness :
    ((masterBuild 0 [cRank] [cRecA] [] []).map masterKey).Nodup ∧
      (masterBuild 0 [cRank] [cRecA] [] []).length = [cRank].length :=
  master_build_unique_keys 0 [cRank] [cRecA] [] []
    (by decide) (by decide) (by decide) (by decide)


/-- C4 counterexample: the claim's "every other joined textual field that
was missing equals N/A" fails — the renamed state-name field (`State_Name`)
of an unmatched feature stays missing through the fill step, because the
fill of lines 306-311 only sweeps the district-recommendation columns and
lines 274-277 exclude `State_Name`/`Dist_Name` from that sweep. -/
theorem fill_leaves_state_name_missing :
    (outFeatures 0 [] [cFeat] []).map MFeat.stateName = [none] ∧
      (none : Option String) ≠ some "N/A" := by
  decide

/-- C4 (amended): the output writer's fill sets every missing category
field to `"No Data"`, a missing community marker to `""`, a missing
community flag to `false`, and a missing district-recommendation cell to
`"N/A"` (object dtype) or `0` (numeric dtype) — while the joined
`State_Name` and `Dist_Name` fields are left untouched, missing or not. -/
theorem output_fill_policy (dts : List DType) (z : MFeat) :
    (z.adapt = none → (fillFeat dts z).adapt = some "No Data") ∧
      (z.miti = none → (fillFeat dts z).miti = some "No Data") ∧
      (z.repl = none → (fillFeat dts z).repl = some "No Data") ∧
      (z.generalSI = none → (fillFeat dts z).generalSI = some "No Data") ∧
      (z.commSIP = none → (fillFeat dts z).commSIP = some "") ∧
      (z.hasCommSI = none → (fillFeat dts z).hasCommSI = some false) ∧
      (∀ i d, dts.get? i = some d → z.recVals.get? i = some none →
        (fillFeat dts z).recVals.get? i =
          some (some (match d with
            | DType.obj => CellV.s "N/A"
            | DType.num => CellV.i 0))) ∧
      (fillFeat dts z).stateName = z.stateName ∧
      (fillFeat dts z).distName = z.distName := by
  refine ⟨?_, ?_, ?_, ?_, ?_, ?_, ?_, rfl, rfl⟩
  · intro h
    simp [fillFeat, h]
  · intro h
    simp [fillFeat, h]
  · intro h
    simp [fillFeat, h]
  · intro h
    simp [fillFeat, h]
  · intro h
    simp [fillFeat, h]
  · intro h
    simp [fillFeat, h]
  · intro i d hd hz
    have := zipWith_get? fillCell dts z.recVals i d none hd hz
    simpa [fillFeat, fillCell] using this

/-- C4 witness: on a feature with every joined cell missing and one
object-dtype recommendation column, the fill produces the documented
sentinels. -/
theorem output_fill_policy_witness :
    (fillFeat [DType.obj] emptyMFeat).adapt = some "No Data" ∧
      (fillFeat [DType.obj] emptyMFeat).commSIP = some "" ∧
      (fillFeat [DType.obj] emptyMFeat).recVals.get? 0 =
        some (some (CellV.s "N/A")) := by
  have h := output_fill_policy [DType.obj] emptyMFeat
  exact ⟨h.1 rfl, h.2.2.2.2.1 rfl, h.2.2.2.2.2.2.1 0 DType.obj rfl rfl⟩

/-- C7 counterexample: a missing boundary file aborts the run with no
output, but the descriptive message goes to standard output — the error
channel stays empty, contradicting the claim that the message appears on
the process's error channel. -/
theorem missing_input_reports_on_stdout :
    (runControl missingShpEnv).finished = false ∧
      (runControl missingShpEnv).outputWritten = false ∧
      (runControl missingShpEnv).stderrLog = [] ∧
      (runControl missingShpEnv).stdoutLog ≠ [] := by
  decide

/-- C7 (amended): every missing-input, schema or write failure aborts the
run immediately with no output file set and a descriptive message — on
standard output for the caught failures (missing files, unreadable inputs,
write errors), on the error channel only for the uncaught schema
exceptions. -/
theorem run_aborts_on_failure (e : RunEnv) (h : anyFailure e = true) :
    (runControl e).finished = false ∧
      (runControl e).outputWritten = false ∧
      ((runControl e).stdoutLog ≠ [] ∨ (runControl e).stderrLog ≠ []) := by
  rcases e with ⟨a, b, c, d, f, g, i, j, k, l, m⟩
  revert h
  revert a b c d f g i j k l m
  decide

/-- C7 witness: a failing write aborts with no output and a message. -/
theorem run_aborts_on_failure_witness :
    (runControl writeFailEnv).finished = false ∧
      (runControl writeFailEnv).outputWritten = false ∧
      ((runControl writeFailEnv).stdoutLog ≠ [] ∨
        (runControl writeFailEnv).stderrLog ≠ []) :=
  run_aborts_on_failure writeFailEnv (by decide)


/-- C8: when no boundary feature's match key occurs among the master
records' keys, the zero-match warning of line 222 fires, the run proceeds
to a successful write (zero matches is not an abort condition), and every
written feature carries `"No Data"` in all four category fields. -/
theorem zero_matches_warn_and_proceed (n : Nat) (dts : List DType)
    (feats : List Feature) (masters : List Master)
    (hnm : ∀ f ∈ feats, featKey f ∉ masters.map masterKey) :
    zeroMatchWarning n feats masters = true ∧
      (∀ y ∈ outFeatures n dts feats masters,
        y.adapt = some "No Data" ∧ y.miti = some "No Data" ∧
          y.repl = some "No Data" ∧ y.generalSI = some "No Data") ∧
      (runControl zeroEnv).finished = true ∧
      (runControl zeroEnv).outputWritten = true ∧
      "Warning: No successful matches found!" ∈
        (runControl zeroEnv).stdoutLog := by
  have hnone : ∀ p ∈ geomMergePairs feats masters, p.2 = (none : Option Master) := by
    rintro ⟨f, ob⟩ hp
    cases ob with
    | none => rfl
    | some m =>
      have hp2 : (f, some m) ∈ leftMerge featKey masterKey feats masters := hp
      have hk := leftMerge_key_eq featKey masterKey feats masters f m hp2
      have hf : f ∈ feats :=
        leftMerge_fst_mem featKey masterKey feats masters (f, some m) hp2
      exact absurd (List.mem_map.mpr ⟨m, hk.2, hk.1⟩) (hnm f hf)
  have hadapt : ∀ z ∈ geomMerge n feats masters, z.adapt = none := by
    intro z hz
    obtain ⟨p, hp, hpe⟩ := List.mem_map.mp hz
    have h0 := hnone p hp
    rcases p with ⟨f, ob⟩
    cases h0
    rw [← hpe]
    rfl
  refine ⟨?_, ?_, by decide, by decide, by decide⟩
  · unfold zeroMatchWarning successfulMerges
    have hfn : (geomMerge n feats masters).filter
        (fun y => y.adapt.isSome) = [] := by
      rw [List.filter_eq_nil_iff]
      intro y hy
      rw [hadapt y hy]
      simp
    rw [hfn]
    rfl
  · intro y hy
    obtain ⟨z, hz, hze⟩ := List.mem_map.mp hy
    obtain ⟨p, hp, hpe⟩ := List.mem_map.mp hz
    have h0 := hnone p hp
    rcases p with ⟨f, ob⟩
    cases h0
    rw [← hze, ← hpe]
    refine ⟨rfl, rfl, rfl, rfl⟩

/-- C8 witness: a single `Pune` feature against an empty master set trips
the warning while the run still finishes and writes. -/
theorem zero_matches_warn_and_proceed_witness :
    zeroMatchWarning 0 [cFeat] [] = true ∧
      (runControl zeroEnv).finished = true ∧
      (runControl zeroEnv).outputWritten = true := by
  have h := zero_matches_warn_and_proceed 0 [] [cFeat] [] (by decide)
  exact ⟨h.1, h.2.2.1, h.2.2.2.1⟩


/-- A boolean cell check certifies list membership of a present value. -/
theorem optInB_some (v : String) (ls : List String)
    (h : optInB (some v) ls = true) : v ∈ ls := by
  unfold optInB at h
  exact List.mem_of_elem_eq_true h

/-- C9 counterexample: the pipeline never validates category values.  A
ranking sheet cell holding `"Banana"` flows verbatim into the written
output, which therefore holds a value that is neither `"No Data"` nor an
enumerated suitability level. -/
theorem category_value_passthrough_counterexample :
    (pipelineFeatures 0 [] [cFeat] [badRank] [] [] []).map MFeat.adapt =
        [some "Banana"] ∧
      "Banana" ∉ adaptationLevels ∧ "Banana" ≠ "No Data" := by
  decide

/-- C9 (amended): the four category fields of every output feature are
each either `"No Data"` or a value copied from the corresponding source
sheet; hence whenever the ranking sheet's three category columns and the
potential sheet's score column only hold enumerated suitability levels (or
are missing), every output feature's category fields lie in the sentinel-
extended enumerated sets.  The code itself enforces no such constraint. -/
theorem category_values_enumerated (n : Nat) (dts : List DType)
    (feats : List Feature) (ranking : List RankRow) (recs : List RecRow)
    (sips : List SipRow) (pots : List PotRow)
    (hA : ∀ r ∈ ranking, optInB r.adapt adaptationLevels = true)
    (hM : ∀ r ∈ ranking, optInB r.miti mitigationLevels = true)
    (hR : ∀ r ∈ ranking, optInB r.repl replacementLevels = true)
    (hP : ∀ p ∈ pots, optInB p.finalPot generalSILevels = true) :
    ∀ y ∈ pipelineFeatures n dts feats ranking recs sips pots,
      (∃ v, y.adapt = some v ∧ (v = "No Data" ∨ v ∈ adaptationLevels)) ∧
        (∃ v, y.miti = some v ∧ (v = "No Data" ∨ v ∈ mitigationLevels)) ∧
        (∃ v, y.repl = some v ∧ (v = "No Data" ∨ v ∈ replacementLevels)) ∧
        (∃ v, y.generalSI = some v ∧
          (v = "No Data" ∨ v ∈ generalSILevels)) := by
  intro y hy
  unfold pipelineFeatures outFeatures geomMerge geomMergePairs at hy
  obtain ⟨z, hz, hze⟩ := List.mem_map.mp hy
  obtain ⟨p, hp2, hpe⟩ := List.mem_map.mp hz
  subst hze
  subst hpe
  rcases p with ⟨f, ob⟩
  cases ob with
  | none =>
    exact ⟨⟨"No Data", rfl, Or.inl rfl⟩, ⟨"No Data", rfl, Or.inl rfl⟩,
      ⟨"No Data", rfl, Or.inl rfl⟩, ⟨"No Data", rfl, Or.inl rfl⟩⟩
  | some m =>
    have hp3 : (f, some m) ∈ leftMerge featKey masterKey feats
        (masterBuild n ranking recs sips pots) := hp2
    have hmm := (leftMerge_key_eq featKey masterKey feats
      (masterBuild n ranking recs sips pots) f m hp3).2
    unfold masterBuild at hmm
    obtain ⟨x, hx, hxe⟩ := List.mem_map.mp hmm
    subst hxe
    rcases x with ⟨⟨⟨rk, orec⟩, osip⟩, opot⟩
    have hx3 : (((rk, orec), osip), opot) ∈
        leftMerge (fun p => rankKey p.1.1) potKey
          (step2 ranking recs sips) pots := hx
    have hs2 : ((rk, orec), osip) ∈
        leftMerge (fun p => rankKey p.1) sipKey (step1 ranking recs) sips :=
      leftMerge_fst_mem (fun p => rankKey p.1.1) potKey
        (step2 ranking recs sips) pots _ hx3
    have hs1 : (rk, orec) ∈ leftMerge rankKey recKey ranking recs :=
      leftMerge_fst_mem (fun p => rankKey p.1) sipKey
        (step1 ranking recs) sips _ hs2
    have hrk : rk ∈ ranking :=
      leftMerge_fst_mem rankKey recKey ranking recs _ hs1
    refine ⟨?_, ?_, ?_, ?_⟩
    · cases hv : rk.adapt with
      | none =>
        exact ⟨"No Data", by simp [fillFeat, toMFeat, toMaster, hv],
          Or.inl rfl⟩
      | some v =>
        refine ⟨v, by simp [fillFeat, toMFeat, toMaster, hv], Or.inr ?_⟩
        have hopt := hA rk hrk
        rw [hv] at hopt
        exact optInB_some v adaptationLevels hopt
    · cases hv : rk.miti with
      | none =>
        exact ⟨"No Data", by simp [fillFeat, toMFeat, toMaster, hv],
          Or.inl rfl⟩
      | some v =>
        refine ⟨v, by simp [fillFeat, toMFeat, toMaster, hv], Or.inr ?_⟩
        have hopt := hM rk hrk
        rw [hv] at hopt
        exact optInB_some v mitigationLevels hopt
    · cases hv : rk.repl with
      | none =>
        exact ⟨"No Data", by simp [fillFeat, toMFeat, toMaster, hv],
          Or.inl rfl⟩
      | some v =>
        refine ⟨v, by simp [fillFeat, toMFeat, toMaster, hv], Or.inr ?_⟩
        have hopt := hR rk hrk
        rw [hv] at hopt
        exact optInB_some v replacementLevels hopt
    · cases opot with
      | none =>
        exact ⟨"No Data", by simp [fillFeat, toMFeat, toMaster],
          Or.inl rfl⟩
      | some pt =>
        have hpt := (leftMerge_key_eq (fun p => rankKey p.1.1) potKey
          (step2 ranking recs sips) pots ((rk, orec), osip) pt hx3).2
        cases hfv : pt.finalPot with
        | none =>
          exact ⟨"No Data", by simp [fillFeat, toMFeat, toMaster, hfv],
            Or.inl rfl⟩
        | some v =>
          refine ⟨v, by simp [fillFeat, toMFeat, toMaster, hfv], Or.inr ?_⟩
          have hopt := hP pt hpt
          rw [hfv] at hopt
          exact optInB_some v generalSILevels hopt

/-- C9 witness: a well-valued ranking row for `Pune` produces an output
adaptation value inside the enumerated set. -/
theorem category_values_enumerated_witness :
    (pipelineFeatures 0 [] [cFeat] [cRank] [] [] []).map MFeat.adapt =
        [some "Highly Suitable"] ∧
      ("Highly Suitable" = "No Data" ∨
        "Highly Suitable" ∈ adaptationLevels) := by
  have h := category_values_enumerated 0 [] [cFeat] [cRank] [] [] []
    (by decide) (by decide) (by decide) (by decide)
  have h2 := (h (fillFeat [] (toMFeat 0
    (cFeat, some (toMaster 0 (((cRank, none), none), none))))) (by decide)).1
  obtain ⟨v, hv1, hv2⟩ := h2
  have hv : v = "Highly Suitable" := by
    have he : (fillFeat [] (toMFeat 0
        (cFeat, some (toMaster 0 (((cRank, none), none), none))))).adapt =
        some "Highly Suitable" := by decide
    rw [he] at hv1
    exact (Option.some_inj.mp hv1).symm
  subst hv
  exact ⟨by decide, hv2⟩


/-- C10 counterexample: the summary report's community branch is *not*
dead for every run — an acronym sheet that maps some recommendation column
to the literal name `Has_CommSIP` puts that column into the saved schema,
and the branch of line 357 then executes. -/
theorem report_branch_reachable_counterexample :
    "Has_CommSIP" ∈ savedCols hcsSchema ∧
      reportBranchRuns hcsSchema = true := by
  decide

/-- C10 (amended): the pipeline's own community boolean column is named
`Has_CommSI`, and it never creates a column named `Has_CommSIP`; in every
run whose acronym-renamed recommendation columns do not themselves contain
`Has_CommSIP`, the saved schema has no such column, so the report's
community-count branch (which tests for `Has_CommSIP`) does not execute. -/
theorem report_branch_dead (si : SchemaIn)
    (h : "Has_CommSIP" ∉ renamedRecCols si) :
    "Has_CommSIP" ∉ savedCols si ∧ reportBranchRuns si = false := by
  have hgdf : "Has_CommSIP" ∉ gdfColsK si := by
    intro hmem
    rcases mem_addCol _ _ _ hmem with h1 | h1
    · rcases List.mem_cons.mp h1 with h2 | h2
      · exact absurd h2 (by decide)
      · exact absurd (List.mem_filter.mp h2).2 (by decide)
    · exact absurd h1 (by decide)
  have hm1 : "Has_CommSIP" ∉ masterCols1 si := by
    intro hmem
    unfold masterCols1 dropSuffixed at hmem
    have hmem2 := (List.mem_filter.mp hmem).1
    rcases mem_mergeColsOn _ _ _ _ _ _ hmem2 with ⟨c, hc, hce⟩ | ⟨c, hc, hce⟩
    · rcases hce with hce | hce
      · rw [← hce] at hc
        exact absurd hc (by decide)
      · rw [string_append_empty_right c] at hce
        rw [← hce] at hc
        exact absurd hc (by decide)
    · rcases hce with hce | hce
      · rw [← hce] at hc
        unfold recProcessedCols at hc
        rcases mem_addCol _ _ _ hc with h2 | h2
        · exact h h2
        · exact absurd h2 (by decide)
      · exact absurd hce.symm (append_rec_ne_hcs c)
  have hm2 : "Has_CommSIP" ∉ masterCols2 si := by
    intro hmem
    unfold masterCols2 at hmem
    rcases mem_mergeColsOn _ _ _ _ _ _ hmem with ⟨c, hc, hce⟩ | ⟨c, hc, hce⟩
    · rcases hce with hce | hce
      · rw [← hce] at hc
        exact hm1 hc
      · exact absurd hce.symm (append_x_ne_hcs c)
    · rcases hce with hce | hce
      · rw [← hce] at hc
        exact absurd hc (by decide)
      · exact absurd hce.symm (append_y_ne_hcs c)
  have hm3 : "Has_CommSIP" ∉ masterCols3 si := by
    intro hmem
    unfold masterCols3 at hmem
    rcases mem_mergeColsOn _ _ _ _ _ _ hmem with ⟨c, hc, hce⟩ | ⟨c, hc, hce⟩
    · rcases hce with hce | hce
      · rw [← hce] at hc
        exact hm2 hc
      · exact absurd hce.symm (append_x_ne_hcs c)
    · rcases hce with hce | hce
      · rw [← hce] at hc
        exact absurd hc (by decide)
      · exact absurd hce.symm (append_y_ne_hcs c)
  have hmK : "Has_CommSIP" ∉ masterColsK si := by
    intro hmem
    unfold masterColsK at hmem
    rcases mem_addCol _ _ _ hmem with h1 | h1
    · exact hm3 h1
    · exact absurd h1 (by decide)
  have hmg : "Has_CommSIP" ∉ mergedCols2 si := by
    intro hmem
    unfold mergedCols2 at hmem
    have hmem1 := mem_of_mem_dedupKeepFirst _ _ hmem
    unfold mergedCols1 at hmem1
    have hmem0 := (List.mem_filter.mp hmem1).1
    unfold mergedCols0 at hmem0
    rcases mem_mergeColsOn _ _ _ _ _ _ hmem0 with ⟨c, hc, hce⟩ | ⟨c, hc, hce⟩
    · rcases hce with hce | hce
      · rw [← hce] at hc
        exact hgdf hc
      · exact absurd hce.symm (append_x_ne_hcs c)
    · rcases hce with hce | hce
      · rw [← hce] at hc
        exact hmK hc
      · exact absurd hce.symm (append_y_ne_hcs c)
  have hac1 : "Has_CommSIP" ∉ afterCoreCols si := by
    intro hmem
    unfold afterCoreCols afterCore at hmem
    rcases (mem_coreFold coreMapping (mergedCols2 si) (essential0 si)).1
        _ hmem with h1 | h1
    · exact hmg h1
    · exact absurd h1 (by decide)
  have hac2 : "Has_CommSIP" ∉ afterCoreEss si := by
    intro hmem
    unfold afterCoreEss afterCore at hmem
    rcases (mem_coreFold coreMapping (mergedCols2 si) (essential0 si)).2
        _ hmem with h1 | h1
    · unfold essential0 at h1
      rcases List.mem_cons.mp h1 with h2 | h2
      · exact absurd h2 (by decide)
      · exact hgdf (List.mem_filter.mp h2).1
    · exact absurd h1 (by decide)
  have haf1 : "Has_CommSIP" ∉ afterFlagCols si := by
    intro hmem
    unfold afterFlagCols at hmem
    split at hmem
    · rcases mem_addCol _ _ _ hmem with h1 | h1
      · exact hac1 h1
      · exact absurd h1 (by decide)
    · exact hac1 hmem
  have haf2 : "Has_CommSIP" ∉ afterFlagEss si := by
    intro hmem
    unfold afterFlagEss at hmem
    split at hmem
    · rcases List.mem_append.mp hmem with h1 | h1
      · exact hac2 h1
      · exact absurd (List.mem_singleton.mp h1) (by decide)
    · exact hac2 hmem
  have hess : "Has_CommSIP" ∉ essentialCols si := by
    intro hmem
    unfold essentialCols at hmem
    rcases mem_addRecCols (skipNames si) (afterFlagCols si)
        (afterFlagEss si) _ hmem with h1 | h1
    · exact haf2 h1
    · exact haf1 h1
  have hsaved : "Has_CommSIP" ∉ savedCols si := by
    intro hmem
    unfold savedCols at hmem
    by_cases hnd : (essentialCols si).Nodup
    · rw [if_pos hnd] at hmem
      exact hess hmem
    · rw [if_neg hnd] at hmem
      exact hess (mem_of_mem_dedupKeepFirst _ _ hmem)
  refine ⟨hsaved, ?_⟩
  unfold reportBranchRuns
  cases hcb : (savedCols si).contains "Has_CommSIP" with
  | false => rfl
  | true => exact absurd (List.mem_of_elem_eq_true hcb) hsaved

/-- C10 witness: with an empty acronym sheet (so no renamed column is
`Has_CommSIP`) the saved schema has no such column and the community
branch is dead. -/
theorem report_branch_dead_witness :
    "Has_CommSIP" ∉ savedCols cleanSchema ∧
      reportBranchRuns cleanSchema = false :=
  report_branch_dead cleanSchema (by decide)

end Solar
